import Mathlib

/-!
Verification of the audio-extractor HTTP service (`server.js`, ESM version).

The service exposes `POST /extract-audio`: it validates the request body,
creates a working directory under `/tmp`, downloads a Google Drive file,
probes it with `ffprobe`, transcodes it with `ffmpeg`, uploads the result to
GCS with a signed URL, responds with JSON, and removes the working directory
in a `finally` block.

The embedding below translates the server's pipeline into pure Lean
functions.  External effects (the Drive stream, the `ffprobe`/`ffmpeg`
subprocesses, GCS upload and signing, `fs.rmSync`) are supplied through an
`Env` record of outcome oracles; the handler returns the HTTP response
together with a trace of the side-effecting operations it performed, in
order.  JavaScript numbers are modelled by `JNum` (finite rational, NaN or
a signed infinity); `Number(·)` coercion of raw JSON values and
`JSON.parse` are uninterpreted oracle functions in `Env`, since only their
outcome shape matters to the pipeline.
-/

namespace AudioExtractor

/-- Model of a JavaScript number: a finite value (as a rational), `NaN`,
`Infinity` or `-Infinity`. -/
inductive JNum where
  | nan : JNum
  | inf : JNum
  | ninf : JNum
  | fin (q : ℚ) : JNum
deriving DecidableEq

/-- `Number.isFinite` : true exactly on finite values. -/
def JNum.isFinite : JNum → Bool
  | .fin _ => true
  | _ => false

/-- The JavaScript comparison `x > 0` (false for `NaN`, true for `Infinity`). -/
def JNum.gt0 : JNum → Bool
  | .fin q => decide (0 < q)
  | .inf => true
  | .nan => false
  | .ninf => false

/-- Rendering of a number by JavaScript string interpolation (`String(x)` /
template literals).  Exact on integral values, which are the only ones the
theorems evaluate; non-integral rationals use Lean's `Rat` printing as a
stand-in for the float-to-string builtin. -/
def JNum.toStr : JNum → String
  | .nan => "NaN"
  | .inf => "Infinity"
  | .ninf => "-Infinity"
  | .fin q => if q.den = 1 then toString q.num else toString q

/-- `Number(field ?? default)` : the request carries `some n` when the field
is present (`n` being the `Number(·)` coercion of the raw JSON value, so a
non-numeric value shows up as `JNum.nan`), and the numeric literal default
otherwise. -/
def coerceNum (field : Option JNum) (dflt : ℚ) : JNum :=
  match field with
  | some n => n
  | none => .fin dflt

/-- The call-site sanitiser
`Number.isFinite(x) && x > 0 ? x : dflt` (server.js lines 181-183). -/
def sanitize (x : JNum) (dflt : ℚ) : JNum :=
  if x.isFinite && x.gt0 then x else .fin dflt

/-- JavaScript falsiness test for an optional string value (`!x` on
`undefined` or `""`), used for `!fileId` and `!BUCKET`. -/
def jsFalsyStr : Option String → Bool
  | none => true
  | some s => s = ""

/-- Model of JavaScript `String.prototype.toLowerCase`: lowercase every
character (`Char.toLower` lowercases the basic latin letters, which covers
the format names the server compares against). -/
def jsToLower (s : String) : String := ⟨s.data.map Char.toLower⟩

/-- `(req.body?.format || "ogg").toLowerCase()` (server.js line 153). -/
def normFormat (format : Option String) : String :=
  jsToLower (match format with
   | none => "ogg"
   | some s => if s = "" then "ogg" else s)

/-- `format === "mp3" ? "mp3" : format === "wav" ? "wav" : "ogg"`
(server.js line 163). -/
def audioExtOf (format : String) : String :=
  if format = "mp3" then "mp3" else if format = "wav" then "wav" else "ogg"

/-- The working directory `/tmp/<fileId>-audio` (server.js line 161). -/
def workDirOf (fid : String) : String := "/tmp/" ++ fid ++ "-audio"

/-- `path.join(workDir, "input.mp4")` (server.js line 162). -/
def inputPathOf (fid : String) : String := workDirOf fid ++ "/input.mp4"

/-- `path.join(workDir, "audio." + audioExt)` (server.js line 164). -/
def audioPathOf (fid ext : String) : String := workDirOf fid ++ "/audio." ++ ext

/-- A JSON value, the result type of `JSON.parse`. -/
inductive Json where
  | jnull : Json
  | jbool (b : Bool) : Json
  | jnum (q : ℚ) : Json
  | jstr (s : String) : Json
  | jarr (elems : List Json) : Json
  | jobj (fields : List (String × Json)) : Json

/-- Plain property access `v.k` : the field's value on an object that has
it, `undefined` (`none`) otherwise. -/
def jsField : Json → String → Option Json
  | .jobj fields, k => (fields.find? (fun p => p.1 = k)).map Prod.snd
  | _, _ => none

/-- Optional chaining `x?.k` : `undefined` when `x` is `null`/`undefined`,
otherwise plain access. -/
def jsOptChain (x : Option Json) (k : String) : Option Json :=
  match x with
  | none => none
  | some .jnull => none
  | some v => jsField v k

/-- The shell command string built by `ffprobeJson` (server.js lines 45-48):
the file path is interpolated, quoted, into a single `execSync` string. -/
def ffprobeCmd (filePath : String) : String :=
  "ffprobe -v error -print_format json -show_format -show_streams \"" ++
    filePath ++ "\""

/-- The `ffmpeg` argument vector built by `extractAudio`
(server.js lines 118-130): base arguments, then codec arguments per format,
then the output path; an unsupported format throws before any arguments are
handed to a subprocess. -/
def ffmpegArgs (inputPath outputPath format : String)
    (sampleRate channels bitrateK : JNum) : Except String (List String) :=
  let args := ["-y", "-i", inputPath, "-vn", "-ac", channels.toStr,
               "-ar", sampleRate.toStr]
  if format = "ogg" then
    .ok (args ++ ["-c:a", "libopus", "-b:a", bitrateK.toStr ++ "k", outputPath])
  else if format = "mp3" then
    .ok (args ++ ["-c:a", "libmp3lame", "-b:a", bitrateK.toStr ++ "k", outputPath])
  else if format = "wav" then
    .ok (args ++ ["-c:a", "pcm_s16le", outputPath])
  else
    .error ("Unsupported format: " ++ format)

/-- One chunked readable stream: the byte chunks it emits, then either a
clean `end` event (`endOk = true`) or an `error` event. -/
structure SourceStream where
  chunks : List (List Nat)
  endOk : Bool
deriving DecidableEq

/-- Outcome of the promise built in `downloadDriveFile`
(server.js lines 75-80): it resolves on the write stream's `finish`,
rejects on the write stream's `error`, and settles on nothing else.  The
payload records the bytes that reached the destination file. -/
inductive PipeOutcome where
  | resolved (fileBytes : List Nat) : PipeOutcome
  | rejected (msg : String) : PipeOutcome
  | pending (fileBytes : List Nat) : PipeOutcome
deriving DecidableEq

/-- True exactly on `rejected`. -/
def PipeOutcome.isRejected : PipeOutcome → Bool
  | .rejected _ => true
  | _ => false

/-- Semantics of `response.data.pipe(dest)` with only
`dest.on("finish", resolve)` and `dest.on("error", reject)` registered:

* the destination write stream failing while a chunk is still to be written
  (`destFailAt = some i`, `i < chunks.length`) fires `error` → rejected;
* otherwise, a source that emits `end` lets `pipe` call `dest.end()`,
  firing `finish` → resolved with every chunk written;
* a source that emits `error` instead is not handled: Node's `pipe` merely
  unpipes and does not end or destroy the destination, so neither
  registered callback ever fires and the promise stays pending, the file
  holding the chunks received so far. -/
def pipePromise (src : SourceStream) (destFailAt : Option Nat)
    (destErrMsg : String) : PipeOutcome :=
  match destFailAt with
  | some i =>
    if i < src.chunks.length then .rejected destErrMsg
    else if src.endOk then .resolved src.chunks.flatten
    else .pending src.chunks.flatten
  | none =>
    if src.endOk then .resolved src.chunks.flatten
    else .pending src.chunks.flatten

/-- `fs.rmSync(p, recursive: true, force: true)` : with `force`, a missing
path is ignored; an operating-system failure on an existing tree throws. -/
def rmSync (dirExists : Bool) (osErr : Option String) : Except String Unit :=
  if dirExists then
    match osErr with
    | some e => .error e
    | none => .ok ()
  else .ok ()

/-- `safeRmdir` (server.js lines 38-42): `rmSync` wrapped in
`try ... catch` with an empty catch block, so every failure is swallowed. -/
def safeRmdir (dirExists : Bool) (osErr : Option String) : Except String Unit :=
  match rmSync dirExists osErr with
  | .error _ => .ok ()
  | .ok _ => .ok ()

/-- A side-effecting operation the handler performs, in trace order. -/
inductive Event where
  | mkdirE (path : String) : Event
  | download (fileId : String) (dest : String) : Event
  | spawnShell (cmd : String) : Event
  | spawnFile (cmd : String) (args : List String) : Event
  | upload (bucket : String) (src : String) (dest : String) : Event
  | signE (bucket : String) (dest : String) : Event
  | rmdirE (path : String) : Event
deriving DecidableEq

/-- Outcomes of the external world for one request.  `execShell`,
`jsonParse` and `number` are oracle models of `execSync`, `JSON.parse` and
the `Number(·)` coercion builtin. -/
structure Env where
  bucket : Option String
  src : SourceStream
  destFailAt : Option Nat
  destErrMsg : String
  execShell : String → Except String String
  jsonParse : String → Except String Json
  number : Option Json → JNum
  ffmpegRes : List String → Except String Unit
  audioStat : Except String Nat
  uploadRes : Except String Unit
  signRes : Except String String
  rmDirExists : Bool
  rmErr : Option String

/-- `ffprobeJson` (server.js lines 44-50): run the shell command, then
`JSON.parse` its stdout; either step may throw. -/
def ffprobeJson (env : Env) (filePath : String) : Except String Json :=
  match env.execShell (ffprobeCmd filePath) with
  | .error e => .error e
  | .ok out => env.jsonParse out

/-- `getDurationSeconds` (server.js lines 52-60): probe, read
`info?.format?.duration` through `Number(·)`, keep it only if finite;
any thrown error is caught and becomes `null`. -/
def getDurationSeconds (env : Env) (filePath : String) : Option ℚ :=
  match ffprobeJson env filePath with
  | .error _ => none
  | .ok info =>
    match env.number (jsOptChain (jsOptChain (some info) "format") "duration") with
    | .fin q => some q
    | _ => none

/-- `uploadAndSign` (server.js lines 84-99): re-check `BUCKET`, upload
non-resumably, then request a one-hour read signed URL; returns the events
performed together with the url or the thrown error. -/
def uploadAndSign (env : Env) (localPath destination : String) :
    List Event × Except String String :=
  if jsFalsyStr env.bucket then ([], .error "Missing BUCKET env var")
  else
    let b := env.bucket.getD ""
    match env.uploadRes with
    | .error e => ([.upload b localPath destination], .error e)
    | .ok _ =>
      match env.signRes with
      | .error e => ([.upload b localPath destination, .signE b destination], .error e)
      | .ok url => ([.upload b localPath destination, .signE b destination], .ok url)

/-- The `meta` object of a success response (server.js lines 195-203).
`elapsedMs` is wall-clock time and is not modelled. -/
structure Meta where
  format : String
  inputBytes : Nat
  audioBytes : Nat
  durationSec : Option ℚ
  bucket : String
  destination : String
deriving DecidableEq

/-- The HTTP response: a 200 JSON success body, or a status with a JSON
`error` field. -/
inductive Resp where
  | ok (fileId : String) (audioUrl : String) (meta : Meta) : Resp
  | err (status : Nat) (error : String) : Resp
deriving DecidableEq

/-- Result of one handler run: the response (`none` when the handler is
stuck awaiting a promise that never settles) and the ordered trace of
side-effecting operations. -/
structure HRes where
  resp : Option Resp
  trace : List Event
deriving DecidableEq

/-- The parsed request body of `POST /extract-audio`.  Numeric fields hold
the `Number(·)` coercion of the raw JSON value when the field is present. -/
structure ReqBody where
  fileId : Option String
  format : Option String
  bitrateK : Option JNum
  sampleRate : Option JNum
  channels : Option JNum
deriving DecidableEq

/-- The `POST /extract-audio` handler (server.js lines 148-214), translated
step for step: option normalisation, the two validation checks (before any
side effect), working-directory creation, download, best-effort probe,
transcode via `extractAudio`, `statSync`, upload-and-sign, then the JSON
response; any throw inside the `try` is answered with status 500 and the
error's message, and the `finally` block runs `safeRmdir` after the
response on every settled path. -/
def handler (req : ReqBody) (env : Env) : HRes :=
  let format := normFormat req.format
  let bitrateK := coerceNum req.bitrateK 32
  let sampleRate := coerceNum req.sampleRate 16000
  let channels := coerceNum req.channels 1
  if jsFalsyStr req.fileId then ⟨some (.err 400 "Missing fileId"), []⟩
  else if jsFalsyStr env.bucket then ⟨some (.err 500 "Missing BUCKET env var"), []⟩
  else
    let fid := req.fileId.getD ""
    let workDir := workDirOf fid
    let inputPath := inputPathOf fid
    let ext := audioExtOf format
    let audioPath := audioPathOf fid ext
    -- the `finally` block: `safeRmdir` cannot throw (its catch block is
    -- empty), so its value is discarded exactly as in the source; the
    -- removal itself is the trailing `rmdirE` event of every settled path.
    let _ := safeRmdir env.rmDirExists env.rmErr
    let fin := [Event.rmdirE workDir]
    let ev1 := [Event.mkdirE workDir, Event.download fid inputPath]
    match pipePromise env.src env.destFailAt env.destErrMsg with
    | .pending _ => ⟨none, ev1⟩
    | .rejected e => ⟨some (.err 500 e), ev1 ++ fin⟩
    | .resolved bytes =>
      let inputSize := bytes.length
      let durationSec := getDurationSeconds env inputPath
      let ev2 := ev1 ++ [Event.spawnShell (ffprobeCmd inputPath)]
      match ffmpegArgs inputPath audioPath format
          (sanitize sampleRate 16000) (sanitize channels 1)
          (sanitize bitrateK 32) with
      | .error e => ⟨some (.err 500 e), ev2 ++ fin⟩
      | .ok args =>
        let ev3 := ev2 ++ [Event.spawnFile "ffmpeg" args]
        match env.ffmpegRes args with
        | .error e => ⟨some (.err 500 e), ev3 ++ fin⟩
        | .ok _ =>
          match env.audioStat with
          | .error e => ⟨some (.err 500 e), ev3 ++ fin⟩
          | .ok audioSize =>
            let destination := "audio/" ++ fid ++ "." ++ ext
            match uploadAndSign env audioPath destination with
            | (uev, .error e) => ⟨some (.err 500 e), ev3 ++ uev ++ fin⟩
            | (uev, .ok url) =>
              ⟨some (.ok fid url ⟨format, inputSize, audioSize,
                       durationSec, env.bucket.getD "", destination⟩),
               ev3 ++ uev ++ fin⟩

/-- Erase the best-effort `durationSec` field of a response, to compare
responses up to the probe's diagnostic output. -/
def Resp.scrubDur : Resp → Resp
  | .ok fid url m => .ok fid url { m with durationSec := none }
  | .err s e => .err s e

/-- A concrete environment in which every external step succeeds: a
two-byte source stream that ends cleanly, a probe whose JSON carries a
duration of 2 seconds, and successful transcode, stat, upload and sign. -/
def envOK : Env where
  bucket := some "b"
  src := ⟨[[0, 1]], true⟩
  destFailAt := none
  destErrMsg := ""
  execShell := fun _ => Except.ok "probe-stdout"
  jsonParse := fun _ =>
    Except.ok (.jobj [("format", .jobj [("duration", .jstr "2.0")])])
  number := fun j => match j with
    | some (.jstr _) => .fin 2
    | _ => .nan
  ffmpegRes := fun _ => Except.ok ()
  audioStat := Except.ok 7
  uploadRes := Except.ok ()
  signRes := Except.ok "https://signed.example/u"
  rmDirExists := true
  rmErr := none

/-- A minimal well-formed request: `fileId` only, every option omitted. -/
def reqOK : ReqBody := ⟨some "f", none, none, none, none⟩

/-! ## Helper lemmas -/


lemma ffmpegArgs_unsupported (i o f : String) (sr ch bk : JNum)
    (h1 : f ≠ "ogg") (h2 : f ≠ "mp3") (h3 : f ≠ "wav") :
    ffmpegArgs i o f sr ch bk = .error ("Unsupported format: " ++ f) := by
  simp [ffmpegArgs, h1, h2, h3]

lemma ffmpegArgs_ok_format (i o f : String) (sr ch bk : JNum) (args : List String)
    (h : ffmpegArgs i o f sr ch bk = .ok args) :
    f = "ogg" ∨ f = "mp3" ∨ f = "wav" := by
  by_contra hc
  push_neg at hc
  rw [ffmpegArgs_unsupported i o f sr ch bk hc.1 hc.2.1 hc.2.2] at h
  exact Except.noConfusion h

/-- C3: validation precedes all side effects.  A request without a usable
`fileId` (absent or empty, i.e. falsy) is answered 400 with an `error`
message and an empty side-effect trace — no working directory is created;
a request with a `fileId` but no configured bucket is answered 500 with an
`error` message, again with an empty trace, so before any working
directory is created and before any fetch attempt. -/
theorem C3_validation_precedes_side_effects (req : ReqBody) (env : Env) :
    (jsFalsyStr req.fileId = true →
      handler req env = ⟨some (.err 400 "Missing fileId"), []⟩) ∧
    (jsFalsyStr req.fileId = false → jsFalsyStr env.bucket = true →
      handler req env = ⟨some (.err 500 "Missing BUCKET env var"), []⟩) := by
  constructor
  · intro h; simp [handler, h]
  · intro h1 h2; simp [handler, h1, h2]

/-- Witness for C3 at concrete invalid requests. -/
theorem C3_witness :
    handler ⟨none, none, none, none, none⟩ envOK =
      ⟨some (.err 400 "Missing fileId"), []⟩ ∧
    handler reqOK { envOK with bucket := none } =
      ⟨some (.err 500 "Missing BUCKET env var"), []⟩ :=
  ⟨(C3_validation_precedes_side_effects _ _).1 (by decide),
   (C3_validation_precedes_side_effects _ _).2 (by decide) (by decide)⟩

/-- C8: the transcoder's argument list starts with `-y -i <input> -vn`
(video disabled), sets the channel count (`-ac`) and sample rate (`-ar`),
and then per format: ogg selects the opus codec (`libopus`) with bitrate
`<bitrateK>k`; mp3 selects the mp3 codec (`libmp3lame`) with bitrate
`<bitrateK>k`; wav selects uncompressed 16-bit PCM (`pcm_s16le`) and the
`bitrateK` value has no effect on the argument list. -/
theorem C8_ffmpeg_argument_list (i o : String) (sr ch bk bk' : JNum) :
    ffmpegArgs i o "ogg" sr ch bk =
      .ok ["-y", "-i", i, "-vn", "-ac", ch.toStr, "-ar", sr.toStr,
           "-c:a", "libopus", "-b:a", bk.toStr ++ "k", o] ∧
    ffmpegArgs i o "mp3" sr ch bk =
      .ok ["-y", "-i", i, "-vn", "-ac", ch.toStr, "-ar", sr.toStr,
           "-c:a", "libmp3lame", "-b:a", bk.toStr ++ "k", o] ∧
    ffmpegArgs i o "wav" sr ch bk =
      .ok ["-y", "-i", i, "-vn", "-ac", ch.toStr, "-ar", sr.toStr,
           "-c:a", "pcm_s16le", o] ∧
    ffmpegArgs i o "wav" sr ch bk = ffmpegArgs i o "wav" sr ch bk' :=
  ⟨rfl, rfl, rfl, rfl⟩

lemma handler_congr (req req' : ReqBody) (env : Env)
    (h1 : req.fileId = req'.fileId)
    (h2 : normFormat req.format = normFormat req'.format)
    (h3 : sanitize (coerceNum req.bitrateK 32) 32 =
          sanitize (coerceNum req'.bitrateK 32) 32)
    (h4 : sanitize (coerceNum req.sampleRate 16000) 16000 =
          sanitize (coerceNum req'.sampleRate 16000) 16000)
    (h5 : sanitize (coerceNum req.channels 1) 1 =
          sanitize (coerceNum req'.channels 1) 1) :
    handler req env = handler req' env := by
  simp only [handler]
  rw [h1, h2, h3, h4, h5]

/-- C2: cleanup is unconditional and swallowed.  `safeRmdir` never
throws whatever `rmSync` does; removing an already-absent directory does
not fail (`force: true` semantics); the response is unchanged by the
removal's outcome; and on every settled path whose trace created a
working directory, the final side effect is the recursive removal of that
same directory, after the response is determined. -/
theorem C2_cleanup_always (req : ReqBody) (env : Env) :
    (∀ b e, safeRmdir b e = Except.ok ()) ∧
    (∀ e, rmSync false e = Except.ok ()) ∧
    (∀ (e' : Option String) (b : Bool),
      (handler req { env with rmDirExists := b, rmErr := e' }).resp =
        (handler req env).resp) ∧
    (∀ r p, (handler req env).resp = some r →
      Event.mkdirE p ∈ (handler req env).trace →
      (handler req env).trace.getLast? = some (Event.rmdirE p)) := by
  refine ⟨?_, ?_, fun e' b => rfl, ?_⟩
  · intro b e
    cases b <;> cases e <;> simp [safeRmdir, rmSync]
  · intro e
    simp [rmSync]
  · intro r p hr hm
    cases hf : jsFalsyStr req.fileId
    case true => simp [handler, hf] at hm
    case false =>
    cases hb : jsFalsyStr env.bucket
    case true => simp [handler, hf, hb] at hm
    case false =>
    cases hp : pipePromise env.src env.destFailAt env.destErrMsg
    case pending bs => simp [handler, hf, hb, hp] at hr
    case rejected e =>
      simp only [handler, hf, hb, hp] at hm ⊢
      simp at hm ⊢
      simp [hm]
    case resolved bytes =>
      rcases hfa : ffmpegArgs (inputPathOf (req.fileId.getD ""))
          (audioPathOf (req.fileId.getD "") (audioExtOf (normFormat req.format)))
          (normFormat req.format)
          (sanitize (coerceNum req.sampleRate 16000) 16000)
          (sanitize (coerceNum req.channels 1) 1)
          (sanitize (coerceNum req.bitrateK 32) 32) with e | args
      · simp only [handler, hf, hb, hp, hfa] at hm ⊢
        simp at hm ⊢
        simp [hm]
      · rcases hres : env.ffmpegRes args with e | u
        · simp only [handler, hf, hb, hp, hfa, hres] at hm ⊢
          simp at hm ⊢
          simp [hm]
        · rcases hstat : env.audioStat with e | size
          · simp only [handler, hf, hb, hp, hfa, hres, hstat] at hm ⊢
            simp at hm ⊢
            simp [hm]
          · rcases hu : env.uploadRes with e | u'
            · simp only [handler, hf, hb, hp, hfa, hres, hstat] at hm ⊢
              simp [uploadAndSign, hb, hu] at hm ⊢
              simp [hm]
            · rcases hsg : env.signRes with e | url
              · simp only [handler, hf, hb, hp, hfa, hres, hstat] at hm ⊢
                simp [uploadAndSign, hb, hu, hsg] at hm ⊢
                simp [hm]
              · simp only [handler, hf, hb, hp, hfa, hres, hstat] at hm ⊢
                simp [uploadAndSign, hb, hu, hsg] at hm ⊢
                simp [hm]

/-- C4: every numeric option that is provided but non-finite (`NaN`,
including non-numeric JSON values whose `Number(·)` coercion is `NaN`,
and the infinities) or ≤ 0 is replaced by its documented default — 16000
for `sampleRate`, 1 for `channels`, 32 for `bitrateK` — and such a value
never causes the request to fail: the handler behaves identically (same
response, same trace) to the request with the option omitted. -/
theorem C4_numeric_option_defaults (x : JNum)
    (hx : x.isFinite = false ∨ ∃ q, x = .fin q ∧ q ≤ 0) :
    sanitize x 16000 = .fin 16000 ∧ sanitize x 1 = .fin 1 ∧
    sanitize x 32 = .fin 32 ∧
    ∀ (req : ReqBody) (env : Env),
      handler { req with sampleRate := some x } env =
        handler { req with sampleRate := none } env ∧
      handler { req with channels := some x } env =
        handler { req with channels := none } env ∧
      handler { req with bitrateK := some x } env =
        handler { req with bitrateK := none } env := by
  have hs : ∀ d : ℚ, sanitize x d = .fin d := by
    intro d
    rcases hx with h | ⟨q, rfl, hq⟩
    · simp [sanitize, h]
    · simp [sanitize, JNum.isFinite, JNum.gt0, not_lt.mpr hq]
  refine ⟨hs 16000, hs 1, hs 32, ?_⟩
  intro req env
  refine ⟨?_, ?_, ?_⟩ <;>
    apply handler_congr <;>
      first
        | rfl
        | (simp only [coerceNum]; rw [hs]; decide)

/-- Witness for C4 at the concrete bad value `NaN`. -/
theorem C4_witness :
    sanitize JNum.nan 16000 = .fin 16000 ∧ sanitize JNum.nan 1 = .fin 1 ∧
    sanitize JNum.nan 32 = .fin 32 ∧
    (handler { reqOK with sampleRate := some JNum.nan } envOK =
       handler { reqOK with sampleRate := none } envOK ∧
     handler { reqOK with channels := some JNum.nan } envOK =
       handler { reqOK with channels := none } envOK ∧
     handler { reqOK with bitrateK := some JNum.nan } envOK =
       handler { reqOK with bitrateK := none } envOK) := by
  obtain ⟨h1, h2, h3, h4⟩ :=
    C4_numeric_option_defaults JNum.nan (Or.inl (by decide))
  exact ⟨h1, h2, h3, h4 reqOK envOK⟩

/-- C10: the format option is case-insensitive at the public interface.
The format string is lowercased before any dispatch (`normFormat`), so
two spellings with the same lowercase form produce identical handler
behaviour (in particular "OGG" behaves as "ogg" and `normFormat` maps
"OGG" to "ogg" and "Mp3" to "mp3"), and both the chosen file extension
and the success response's `meta.format` are always one of the lowercase
strings ogg, mp3, wav. -/
theorem C10_format_case_insensitive (req : ReqBody) (env : Env) :
    (normFormat (some "OGG") = "ogg" ∧ normFormat (some "Mp3") = "mp3") ∧
    (∀ f1 f2 : Option String, normFormat f1 = normFormat f2 →
      handler { req with format := f1 } env =
      handler { req with format := f2 } env) ∧
    handler { req with format := some "OGG" } env =
      handler { req with format := some "ogg" } env ∧
    (∀ f, audioExtOf f ∈ (["ogg", "mp3", "wav"] : List String)) ∧
    (∀ fid url m, (handler req env).resp = some (.ok fid url m) →
      m.format ∈ (["ogg", "mp3", "wav"] : List String)) := by
  have hcong : ∀ f1 f2 : Option String, normFormat f1 = normFormat f2 →
      handler { req with format := f1 } env =
      handler { req with format := f2 } env := by
    intro f1 f2 h
    apply handler_congr <;> first | rfl | simpa using h
  refine ⟨by decide, hcong, hcong _ _ (by decide), ?_, ?_⟩
  · intro f
    unfold audioExtOf
    split_ifs <;> simp
  · intro fid url m hr
    cases hf : jsFalsyStr req.fileId
    case true => simp [handler, hf] at hr
    case false =>
    cases hb : jsFalsyStr env.bucket
    case true => simp [handler, hf, hb] at hr
    case false =>
    cases hp : pipePromise env.src env.destFailAt env.destErrMsg
    case pending bs => simp [handler, hf, hb, hp] at hr
    case rejected e => simp [handler, hf, hb, hp] at hr
    case resolved bytes =>
      rcases hfa : ffmpegArgs (inputPathOf (req.fileId.getD ""))
          (audioPathOf (req.fileId.getD "") (audioExtOf (normFormat req.format)))
          (normFormat req.format)
          (sanitize (coerceNum req.sampleRate 16000) 16000)
          (sanitize (coerceNum req.channels 1) 1)
          (sanitize (coerceNum req.bitrateK 32) 32) with e | args
      · simp [handler, hf, hb, hp, hfa] at hr
      · rcases hres : env.ffmpegRes args with e | u
        · simp [handler, hf, hb, hp, hfa, hres] at hr
        · rcases hstat : env.audioStat with e | size
          · simp [handler, hf, hb, hp, hfa, hres, hstat] at hr
          · rcases hu : env.uploadRes with e | u'
            · simp [handler, hf, hb, hp, hfa, hres, hstat, uploadAndSign, hb, hu] at hr
            · rcases hsg : env.signRes with e | url'
              · simp [handler, hf, hb, hp, hfa, hres, hstat, uploadAndSign, hb, hu, hsg] at hr
              · simp [handler, hf, hb, hp, hfa, hres, hstat, uploadAndSign, hb, hu, hsg] at hr
                rcases ffmpegArgs_ok_format _ _ _ _ _ _ _ hfa with h | h | h <;>
                  simp [← hr.2.2, h]

/-- C7: for every supported format the produced file's extension equals
the requested format (`audioExtOf` is the identity on ogg, mp3, wav), and
every success response's destination key is exactly the fixed template
`audio/<fileId>.<extension>`; for the default (omitted) format the key is
`audio/<fileId>.ogg`.  The uploaded local file is likewise
`<workDir>/audio.<extension>`. -/
theorem C7_extension_and_destination (req : ReqBody) (env : Env) :
    (audioExtOf "ogg" = "ogg" ∧ audioExtOf "mp3" = "mp3" ∧
     audioExtOf "wav" = "wav") ∧
    (∀ fid url m, (handler req env).resp = some (.ok fid url m) →
      fid = req.fileId.getD "" ∧
      m.destination = "audio/" ++ fid ++ "." ++ audioExtOf (normFormat req.format) ∧
      (req.format = none → m.destination = "audio/" ++ fid ++ ".ogg")) ∧
    (∀ b pth dst, Event.upload b pth dst ∈ (handler req env).trace →
      pth = audioPathOf (req.fileId.getD "") (audioExtOf (normFormat req.format)) ∧
      dst = "audio/" ++ req.fileId.getD "" ++ "." ++
              audioExtOf (normFormat req.format)) := by
  refine ⟨by decide, ?_, ?_⟩
  · intro fid url m hr
    cases hf : jsFalsyStr req.fileId
    case true => simp [handler, hf] at hr
    case false =>
    cases hb : jsFalsyStr env.bucket
    case true => simp [handler, hf, hb] at hr
    case false =>
    cases hp : pipePromise env.src env.destFailAt env.destErrMsg
    case pending bs => simp [handler, hf, hb, hp] at hr
    case rejected e => simp [handler, hf, hb, hp] at hr
    case resolved bytes =>
      rcases hfa : ffmpegArgs (inputPathOf (req.fileId.getD ""))
          (audioPathOf (req.fileId.getD "") (audioExtOf (normFormat req.format)))
          (normFormat req.format)
          (sanitize (coerceNum req.sampleRate 16000) 16000)
          (sanitize (coerceNum req.channels 1) 1)
          (sanitize (coerceNum req.bitrateK 32) 32) with e | args
      · simp [handler, hf, hb, hp, hfa] at hr
      · rcases hres : env.ffmpegRes args with e | u
        · simp [handler, hf, hb, hp, hfa, hres] at hr
        · rcases hstat : env.audioStat with e | size
          · simp [handler, hf, hb, hp, hfa, hres, hstat] at hr
          · rcases hu : env.uploadRes with e | u'
            · simp [handler, hf, hb, hp, hfa, hres, hstat, uploadAndSign, hb, hu] at hr
            · rcases hsg : env.signRes with e | url'
              · simp [handler, hf, hb, hp, hfa, hres, hstat, uploadAndSign, hb, hu, hsg] at hr
              · simp [handler, hf, hb, hp, hfa, hres, hstat, uploadAndSign, hb, hu, hsg] at hr
                obtain ⟨rfl, -, rfl⟩ := hr
                refine ⟨rfl, rfl, ?_⟩
                intro hnone
                simp [hnone, normFormat, jsToLower, audioExtOf, String.append_assoc]
  · intro b pth dst hm
    cases hf : jsFalsyStr req.fileId
    case true => simp [handler, hf] at hm
    case false =>
    cases hb : jsFalsyStr env.bucket
    case true => simp [handler, hf, hb] at hm
    case false =>
    cases hp : pipePromise env.src env.destFailAt env.destErrMsg
    case pending bs => simp [handler, hf, hb, hp] at hm
    case rejected e => simp [handler, hf, hb, hp] at hm
    case resolved bytes =>
      rcases hfa : ffmpegArgs (inputPathOf (req.fileId.getD ""))
          (audioPathOf (req.fileId.getD "") (audioExtOf (normFormat req.format)))
          (normFormat req.format)
          (sanitize (coerceNum req.sampleRate 16000) 16000)
          (sanitize (coerceNum req.channels 1) 1)
          (sanitize (coerceNum req.bitrateK 32) 32) with e | args
      · simp [handler, hf, hb, hp, hfa] at hm
      · rcases hres : env.ffmpegRes args with e | u
        · simp [handler, hf, hb, hp, hfa, hres] at hm
        · rcases hstat : env.audioStat with e | size
          · simp [handler, hf, hb, hp, hfa, hres, hstat] at hm
          · rcases hu : env.uploadRes with e | u'
            · simp [handler, hf, hb, hp, hfa, hres, hstat, uploadAndSign, hb, hu] at hm
              exact ⟨hm.2.1, hm.2.2⟩
            · rcases hsg : env.signRes with e | url'
              · simp [handler, hf, hb, hp, hfa, hres, hstat, uploadAndSign, hb, hu, hsg] at hm
                exact ⟨hm.2.1, hm.2.2⟩
              · simp [handler, hf, hb, hp, hfa, hres, hstat, uploadAndSign, hb, hu, hsg] at hm
                exact ⟨hm.2.1, hm.2.2⟩

/-- C1 (amended): for every request whose normalized format is not one
of ogg, mp3, wav, no `ffmpeg` subprocess is ever spawned (`extractAudio`
throws before `execFileSync`), and when the request passes validation and
the download resolves, it fails with a 500 transcode-stage error whose
message names the unsupported format.  The original claim's stronger
"before any subprocess is spawned" is false, because the best-effort
`ffprobe` metadata subprocess runs before the transcode stage. -/
theorem C1_amended_unsupported_format (req : ReqBody) (env : Env)
    (h1 : normFormat req.format ≠ "ogg") (h2 : normFormat req.format ≠ "mp3")
    (h3 : normFormat req.format ≠ "wav") :
    (∀ c args, Event.spawnFile c args ∉ (handler req env).trace) ∧
    (jsFalsyStr req.fileId = false → jsFalsyStr env.bucket = false →
      ∀ bytes, pipePromise env.src env.destFailAt env.destErrMsg = .resolved bytes →
      (handler req env).resp =
        some (.err 500 ("Unsupported format: " ++ normFormat req.format))) := by
  have hfa := ffmpegArgs_unsupported (inputPathOf (req.fileId.getD ""))
      (audioPathOf (req.fileId.getD "") (audioExtOf (normFormat req.format)))
      (normFormat req.format)
      (sanitize (coerceNum req.sampleRate 16000) 16000)
      (sanitize (coerceNum req.channels 1) 1)
      (sanitize (coerceNum req.bitrateK 32) 32) h1 h2 h3
  constructor
  · intro c args hm
    cases hf : jsFalsyStr req.fileId
    case true => simp [handler, hf] at hm
    case false =>
    cases hb : jsFalsyStr env.bucket
    case true => simp [handler, hf, hb] at hm
    case false =>
    cases hp : pipePromise env.src env.destFailAt env.destErrMsg
    case pending bs => simp [handler, hf, hb, hp] at hm
    case rejected e => simp [handler, hf, hb, hp] at hm
    case resolved bytes => simp [handler, hf, hb, hp, hfa] at hm
  · intro hf hb bytes hp
    simp [handler, hf, hb, hp, hfa]

/-- Witness for the amended C1 at a concrete unsupported format. -/
theorem C1_witness :
    (handler ⟨some "f", some "xyz", none, none, none⟩ envOK).resp =
      some (.err 500 ("Unsupported format: " ++ normFormat (some "xyz"))) :=
  (C1_amended_unsupported_format ⟨some "f", some "xyz", none, none, none⟩ envOK
      (by decide) (by decide) (by decide)).2 (by decide) (by decide)
    [0, 1] (by decide)

/-- Counterexample to C1 as stated: a request with format "xyz" fails
with the transcode-stage error, yet its trace already contains a spawned
subprocess — the shell-run `ffprobe` — so the failure does not happen
before any subprocess is spawned. -/
theorem C1_counterexample :
    (handler ⟨some "f", some "xyz", none, none, none⟩ envOK).resp =
      some (.err 500 "Unsupported format: xyz") ∧
    Event.spawnShell (ffprobeCmd (inputPathOf "f")) ∈
      (handler ⟨some "f", some "xyz", none, none, none⟩ envOK).trace := by
  decide

/-- C5 (amended): the media-conversion tool is the only subprocess run
from an explicit argument vector — every `spawnFile` event in any trace
is `ffmpeg` with the vector built by `ffmpegArgs` — while the companion
metadata probe is invoked through the shell: every `spawnShell` event is
the single `ffprobe` command string with the fileId-derived input path
interpolated into it.  The original claim, that no subprocess command is
built by string concatenation from fileId-derived paths, is false. -/
theorem C5_amended_subprocess_invocations (req : ReqBody) (env : Env) :
    (∀ c args, Event.spawnFile c args ∈ (handler req env).trace →
      c = "ffmpeg" ∧
      ffmpegArgs (inputPathOf (req.fileId.getD ""))
        (audioPathOf (req.fileId.getD "") (audioExtOf (normFormat req.format)))
        (normFormat req.format)
        (sanitize (coerceNum req.sampleRate 16000) 16000)
        (sanitize (coerceNum req.channels 1) 1)
        (sanitize (coerceNum req.bitrateK 32) 32) = .ok args) ∧
    (∀ cmd, Event.spawnShell cmd ∈ (handler req env).trace →
      cmd = ffprobeCmd (inputPathOf (req.fileId.getD ""))) := by
  constructor
  · intro c args hm
    cases hf : jsFalsyStr req.fileId
    case true => simp [handler, hf] at hm
    case false =>
    cases hb : jsFalsyStr env.bucket
    case true => simp [handler, hf, hb] at hm
    case false =>
    cases hp : pipePromise env.src env.destFailAt env.destErrMsg
    case pending bs => simp [handler, hf, hb, hp] at hm
    case rejected e => simp [handler, hf, hb, hp] at hm
    case resolved bytes =>
      rcases hfa : ffmpegArgs (inputPathOf (req.fileId.getD ""))
          (audioPathOf (req.fileId.getD "") (audioExtOf (normFormat req.format)))
          (normFormat req.format)
          (sanitize (coerceNum req.sampleRate 16000) 16000)
          (sanitize (coerceNum req.channels 1) 1)
          (sanitize (coerceNum req.bitrateK 32) 32) with e | args'
      · simp [handler, hf, hb, hp, hfa] at hm
      · rcases hres : env.ffmpegRes args' with e | u
        · simp [handler, hf, hb, hp, hfa, hres] at hm
          obtain ⟨rfl, rfl⟩ := hm
          exact ⟨rfl, by simp [hfa]⟩
        · rcases hstat : env.audioStat with e | size
          · simp [handler, hf, hb, hp, hfa, hres, hstat] at hm
            obtain ⟨rfl, rfl⟩ := hm
            exact ⟨rfl, by simp [hfa]⟩
          · rcases hu : env.uploadRes with e | u'
            · simp [handler, hf, hb, hp, hfa, hres, hstat, uploadAndSign, hb, hu] at hm
              obtain ⟨rfl, rfl⟩ := hm
              exact ⟨rfl, by simp [hfa]⟩
            · rcases hsg : env.signRes with e | url'
              · simp [handler, hf, hb, hp, hfa, hres, hstat, uploadAndSign, hb, hu, hsg] at hm
                obtain ⟨rfl, rfl⟩ := hm
                exact ⟨rfl, by simp [hfa]⟩
              · simp [handler, hf, hb, hp, hfa, hres, hstat, uploadAndSign, hb, hu, hsg] at hm
                obtain ⟨rfl, rfl⟩ := hm
                exact ⟨rfl, by simp [hfa]⟩
  · intro cmd hm
    cases hf : jsFalsyStr req.fileId
    case true => simp [handler, hf] at hm
    case false =>
    cases hb : jsFalsyStr env.bucket
    case true => simp [handler, hf, hb] at hm
    case false =>
    cases hp : pipePromise env.src env.destFailAt env.destErrMsg
    case pending bs => simp [handler, hf, hb, hp] at hm
    case rejected e => simp [handler, hf, hb, hp] at hm
    case resolved bytes =>
      rcases hfa : ffmpegArgs (inputPathOf (req.fileId.getD ""))
          (audioPathOf (req.fileId.getD "") (audioExtOf (normFormat req.format)))
          (normFormat req.format)
          (sanitize (coerceNum req.sampleRate 16000) 16000)
          (sanitize (coerceNum req.channels 1) 1)
          (sanitize (coerceNum req.bitrateK 32) 32) with e | args'
      · simp [handler, hf, hb, hp, hfa] at hm
        exact hm
      · rcases hres : env.ffmpegRes args' with e | u
        · simp [handler, hf, hb, hp, hfa, hres] at hm
          exact hm
        · rcases hstat : env.audioStat with e | size
          · simp [handler, hf, hb, hp, hfa, hres, hstat] at hm
            exact hm
          · rcases hu : env.uploadRes with e | u'
            · simp [handler, hf, hb, hp, hfa, hres, hstat, uploadAndSign, hb, hu] at hm
              exact hm
            · rcases hsg : env.signRes with e | url'
              · simp [handler, hf, hb, hp, hfa, hres, hstat, uploadAndSign, hb, hu, hsg] at hm
                exact hm
              · simp [handler, hf, hb, hp, hfa, hres, hstat, uploadAndSign, hb, hu, hsg] at hm
                exact hm

/-- Counterexample to C5 as stated: the probe subprocess of a concrete
request is a shell command string with the fileId-derived path
"/tmp/f-audio/input.mp4" concatenated into it. -/
theorem C5_counterexample :
    Event.spawnShell (ffprobeCmd (inputPathOf "f")) ∈ (handler reqOK envOK).trace ∧
    ffprobeCmd (inputPathOf "f") =
      "ffprobe -v error -print_format json -show_format -show_streams \"/tmp/f-audio/input.mp4\"" := by
  decide

/-- Witness for the amended C5 on a concrete request. -/
theorem C5_witness :
    ("ffmpeg" = "ffmpeg" ∧
      ffmpegArgs (inputPathOf (reqOK.fileId.getD ""))
        (audioPathOf (reqOK.fileId.getD "") (audioExtOf (normFormat reqOK.format)))
        (normFormat reqOK.format)
        (sanitize (coerceNum reqOK.sampleRate 16000) 16000)
        (sanitize (coerceNum reqOK.channels 1) 1)
        (sanitize (coerceNum reqOK.bitrateK 32) 32) =
        .ok ["-y", "-i", "/tmp/f-audio/input.mp4", "-vn", "-ac", "1", "-ar", "16000",
             "-c:a", "libopus", "-b:a", "32k", "/tmp/f-audio/audio.ogg"]) ∧
    ffprobeCmd (inputPathOf "f") = ffprobeCmd (inputPathOf (reqOK.fileId.getD "")) :=
  ⟨(C5_amended_subprocess_invocations reqOK envOK).1 "ffmpeg" _ (by decide),
   (C5_amended_subprocess_invocations reqOK envOK).2 _ (by decide)⟩

/-- C6: the duration probe is total (it returns an optional rational
and never throws, every failure being caught) and best-effort: a failing
probe command, non-JSON output, or a missing/non-numeric parsed duration
all yield `none`; a finite parsed duration `q` yields `some q`; and the
probe's outcome never changes the request's fate — replacing the probe
oracles changes neither the trace nor the response apart from the
`durationSec` metadata field. -/
theorem C6_probe_best_effort (env : Env) (p : String) :
    (∀ e, env.execShell (ffprobeCmd p) = .error e →
      getDurationSeconds env p = none) ∧
    (∀ out e, env.execShell (ffprobeCmd p) = .ok out →
      env.jsonParse out = .error e → getDurationSeconds env p = none) ∧
    (∀ info, ffprobeJson env p = .ok info →
      (env.number (jsOptChain (jsOptChain (some info) "format") "duration")).isFinite
        = false →
      getDurationSeconds env p = none) ∧
    (∀ info q, ffprobeJson env p = .ok info →
      env.number (jsOptChain (jsOptChain (some info) "format") "duration") = .fin q →
      getDurationSeconds env p = some q) ∧
    (∀ (f : String → Except String String) (g : String → Except String Json)
        (n : Option Json → JNum) (req : ReqBody),
      (handler req { env with execShell := f, jsonParse := g, number := n }).trace =
        (handler req env).trace ∧
      (handler req { env with execShell := f, jsonParse := g, number := n }).resp.map
          Resp.scrubDur =
        (handler req env).resp.map Resp.scrubDur) := by
  refine ⟨?_, ?_, ?_, ?_, ?_⟩
  · intro e he
    simp [getDurationSeconds, ffprobeJson, he]
  · intro out e ho he
    simp [getDurationSeconds, ffprobeJson, ho, he]
  · intro info hi hn
    cases hx : env.number (jsOptChain (jsOptChain (some info) "format") "duration") <;>
      simp [hx, JNum.isFinite] at hn ⊢ <;>
      simp [getDurationSeconds, hi, hx]
  · intro info q hi hq
    simp [getDurationSeconds, hi, hq]
  · intro f g n req
    cases hf : jsFalsyStr req.fileId
    case true => simp [handler, hf]
    case false =>
    cases hb : jsFalsyStr env.bucket
    case true => simp [handler, hf, hb]
    case false =>
    cases hp : pipePromise env.src env.destFailAt env.destErrMsg
    case pending bs => simp [handler, hf, hb, hp]
    case rejected e => simp [handler, hf, hb, hp]
    case resolved bytes =>
      rcases hfa : ffmpegArgs (inputPathOf (req.fileId.getD ""))
          (audioPathOf (req.fileId.getD "") (audioExtOf (normFormat req.format)))
          (normFormat req.format)
          (sanitize (coerceNum req.sampleRate 16000) 16000)
          (sanitize (coerceNum req.channels 1) 1)
          (sanitize (coerceNum req.bitrateK 32) 32) with e | args
      · simp [handler, hf, hb, hp, hfa]
      · rcases hres : env.ffmpegRes args with e | u
        · simp [handler, hf, hb, hp, hfa, hres]
        · rcases hstat : env.audioStat with e | size
          · simp [handler, hf, hb, hp, hfa, hres, hstat]
          · rcases hu : env.uploadRes with e | u'
            · simp [handler, hf, hb, hp, hfa, hres, hstat, uploadAndSign, hb, hu]
            · rcases hsg : env.signRes with e | url'
              · simp [handler, hf, hb, hp, hfa, hres, hstat, uploadAndSign, hb, hu, hsg]
              · simp [handler, hf, hb, hp, hfa, hres, hstat, uploadAndSign, hb, hu,
                      hsg, Resp.scrubDur]

/-- C9 (amended): the download promise resolves only after the full
chunk sequence has been drained to the destination and the source has
ended cleanly; an error of the destination write stream rejects the
promise; but an error of the source stream is not handled — the promise
neither resolves nor rejects (the file keeps only the received chunks)
and the request never responds.  The original claim, that source-stream
errors also reject the operation, is false. -/
theorem C9_amended_stream_semantics (src : SourceStream) (failAt : Option Nat)
    (msg : String) :
    (∀ bs, pipePromise src failAt msg = .resolved bs →
      bs = src.chunks.flatten ∧ src.endOk = true) ∧
    (∀ i, failAt = some i → i < src.chunks.length →
      pipePromise src failAt msg = .rejected msg) ∧
    (src.endOk = false → failAt = none →
      pipePromise src failAt msg = .pending src.chunks.flatten) ∧
    (∀ (req : ReqBody) (env : Env),
      env.src = src → env.destFailAt = failAt → env.destErrMsg = msg →
      src.endOk = false → failAt = none →
      jsFalsyStr req.fileId = false → jsFalsyStr env.bucket = false →
      (handler req env).resp = none) := by
  refine ⟨?_, ?_, ?_, ?_⟩
  · intro bs h
    rcases failAt with _ | i <;> cases he : src.endOk <;>
      simp [pipePromise, he] at h <;> simp [h]
    · split at h
      · exact PipeOutcome.noConfusion h
      · simp at h
    · split at h
      · exact PipeOutcome.noConfusion h
      · simp at h
        simp [h]
  · intro i hi hlt
    subst hi
    simp [pipePromise, hlt]
  · intro he hn
    subst hn
    simp [pipePromise, he]
  · intro req env hs hd hm he hn hf hb
    have hp : pipePromise env.src env.destFailAt env.destErrMsg =
        .pending src.chunks.flatten := by
      rw [hs, hd, hm, hn]
      simp [pipePromise, he]
    simp [handler, hf, hb, hp]

/-- Witness for C2 on a concrete successful request. -/
theorem C2_witness :
    safeRmdir true (some "EPERM") = Except.ok () ∧
    rmSync false (some "ENOENT") = Except.ok () ∧
    (handler reqOK { envOK with rmDirExists := true, rmErr := some "EPERM" }).resp =
      (handler reqOK envOK).resp ∧
    Event.mkdirE "/tmp/f-audio" ∈ (handler reqOK envOK).trace ∧
    (handler reqOK envOK).trace.getLast? = some (Event.rmdirE "/tmp/f-audio") :=
  ⟨(C2_cleanup_always reqOK envOK).1 true (some "EPERM"),
   (C2_cleanup_always reqOK envOK).2.1 (some "ENOENT"),
   (C2_cleanup_always reqOK envOK).2.2.1 (some "EPERM") true,
   by decide,
   (C2_cleanup_always reqOK envOK).2.2.2
     (.ok "f" "https://signed.example/u" ⟨"ogg", 2, 7, some 2, "b", "audio/f.ogg"⟩)
     "/tmp/f-audio" (by decide) (by decide)⟩

/-- Witness for C6 with a concretely failing probe command. -/
theorem C6_witness :
    getDurationSeconds { envOK with execShell := fun _ => Except.error "boom" }
        (inputPathOf "f") = none ∧
    (handler reqOK { envOK with
        execShell := (fun _ => Except.error "boom"),
        jsonParse := envOK.jsonParse, number := envOK.number }).trace =
      (handler reqOK envOK).trace :=
  ⟨(C6_probe_best_effort { envOK with execShell := fun _ => Except.error "boom" }
      (inputPathOf "f")).1 "boom" rfl,
   ((C6_probe_best_effort envOK (inputPathOf "f")).2.2.2.2
      (fun _ => Except.error "boom") envOK.jsonParse envOK.number reqOK).1⟩

/-- Witness for C7 on a concrete successful request. -/
theorem C7_witness :
    (handler reqOK envOK).resp =
      some (.ok "f" "https://signed.example/u" ⟨"ogg", 2, 7, some 2, "b", "audio/f.ogg"⟩) ∧
    "f" = reqOK.fileId.getD "" ∧
    (⟨"ogg", 2, 7, some 2, "b", "audio/f.ogg"⟩ : Meta).destination =
      "audio/" ++ "f" ++ "." ++ audioExtOf (normFormat reqOK.format) ∧
    (reqOK.format = none →
      (⟨"ogg", 2, 7, some 2, "b", "audio/f.ogg"⟩ : Meta).destination =
        "audio/" ++ "f" ++ ".ogg") :=
  ⟨by decide,
   (C7_extension_and_destination reqOK envOK).2.1 "f" "https://signed.example/u"
     ⟨"ogg", 2, 7, some 2, "b", "audio/f.ogg"⟩ (by decide)⟩

/-- Counterexample to C9 as stated: a source stream that errors
immediately leaves the promise pending, not rejected, and the concrete
request produces no response at all. -/
theorem C9_counterexample :
    pipePromise ⟨[], false⟩ none "boom" = .pending [] ∧
    (pipePromise ⟨[], false⟩ none "boom").isRejected = false ∧
    (handler reqOK { envOK with src := ⟨[], false⟩ }).resp = none := by
  decide

/-- Witness for the amended C9 at concrete streams. -/
theorem C9_witness :
    ([0, 1] = (⟨[[0, 1]], true⟩ : SourceStream).chunks.flatten ∧
      (⟨[[0, 1]], true⟩ : SourceStream).endOk = true) ∧
    pipePromise ⟨[[5]], true⟩ (some 0) "werr" = .rejected "werr" ∧
    pipePromise ⟨[[9]], false⟩ none "m" = .pending [9] ∧
    (handler reqOK { envOK with src := ⟨[[9]], false⟩ }).resp = none :=
  ⟨(C9_amended_stream_semantics ⟨[[0, 1]], true⟩ none "").1 [0, 1] (by decide),
   (C9_amended_stream_semantics ⟨[[5]], true⟩ (some 0) "werr").2.1 0 rfl (by decide),
   (C9_amended_stream_semantics ⟨[[9]], false⟩ none "m").2.2.1 rfl rfl,
   (C9_amended_stream_semantics ⟨[[9]], false⟩ none "").2.2.2 reqOK
     { envOK with src := ⟨[[9]], false⟩ } rfl rfl rfl rfl rfl (by decide) (by decide)⟩

/-- Witness for C10 on a concrete successful request. -/
theorem C10_witness :
    (handler reqOK envOK).resp =
      some (.ok "f" "https://signed.example/u" ⟨"ogg", 2, 7, some 2, "b", "audio/f.ogg"⟩) ∧
    handler { reqOK with format := some "OGG" } envOK =
      handler { reqOK with format := some "ogg" } envOK ∧
    (⟨"ogg", 2, 7, some 2, "b", "audio/f.ogg"⟩ : Meta).format ∈
      (["ogg", "mp3", "wav"] : List String) :=
  ⟨by decide,
   (C10_format_case_insensitive reqOK envOK).2.2.1,
   (C10_format_case_insensitive reqOK envOK).2.2.2.2 "f" "https://signed.example/u"
     ⟨"ogg", 2, 7, some 2, "b", "audio/f.ogg"⟩ (by decide)⟩

end AudioExtractor
